import Mathlib

/-!
# Verification of the BookDownloader acquisition pipeline

A shallow embedding of the core logic of `downloader.py` (repository
`bindrap/BookDownloader`), together with proofs and refutations of the
frozen specification claims.

Strings are modelled as Lean `String` / `List Char`; Python string
primitives (`lower`, `strip`, `split`, `startswith`, `in`) are embedded
as executable functions on `List Char`.  Network interaction is modelled
by oracles: a function giving, for each request the code issues, the
outcome of that request (success, HTTP error code, timeout, connection
failure, or an unclassified exception).  Filesystem state is modelled as
the list of file names in the relevant directory, plus a flag recording
whether the destination file of a transfer exists.
-/

namespace BookDownloader

/-! ## Python string primitives

`pyIsSpace` models Python's whitespace class for the characters that can
actually appear in queries and filenames (space, tab, newline, carriage
return, vertical tab, form feed). -/

def pyIsSpace (c : Char) : Bool :=
  c == ' ' || c == '\t' || c == '\n' || c == '\r' || c == '\x0b' || c == '\x0c'

/-- Python `str.lower()`, as character-wise lowercasing (ASCII model). -/
def pyLower (s : List Char) : List Char :=
  s.map Char.toLower

/-- Python `str.strip()`: remove leading and trailing whitespace. -/
def pyStrip (s : List Char) : List Char :=
  ((s.dropWhile pyIsSpace).reverse.dropWhile pyIsSpace).reverse

/-- Python `title.startswith(query)`. -/
def pyStartswith (s p : List Char) : Bool :=
  p.isPrefixOf s

/-- Python `needle in hay` (contiguous substring test). -/
def pyIn (needle : List Char) : List Char → Bool
  | [] => needle.isEmpty
  | c :: cs => needle.isPrefixOf (c :: cs) || pyIn needle cs

/-- Helper for `pySplit`: `acc` is the reversed current word. -/
def pySplitAux : List Char → List Char → List (List Char)
  | acc, [] => if acc.isEmpty then [] else [acc.reverse]
  | acc, c :: cs =>
    if pyIsSpace c then
      if acc.isEmpty then pySplitAux [] cs
      else acc.reverse :: pySplitAux [] cs
    else pySplitAux (c :: acc) cs

/-- Python `str.split()` with no argument: split on whitespace runs,
dropping empty tokens. -/
def pySplit (s : List Char) : List (List Char) :=
  pySplitAux [] s

/-! ## Relevance ranker (`calculate_relevance`, downloader.py lines 985-1017)

The token-overlap branch uses Python sets (`set(...)`, `intersection`,
`len`); these are embedded as `Finset (List Char)`.  Python computes
`len(matching)/len(query_words)*100` in floating point and truncates with
`int(...)`; the embedding uses exact natural division, which agrees with
the float computation on all values relevant to the claims. -/

def calculate_relevance (query title : String) : Nat :=
  let query_lower := pyStrip (pyLower query.data)
  let title_lower := pyStrip (pyLower title.data)
  if query_lower = title_lower then 100
  else if pyStartswith title_lower query_lower then 90
  else if pyIn query_lower title_lower then 80
  else
    let query_words : Finset (List Char) := (pySplit query_lower).toFinset
    let title_words : Finset (List Char) := (pySplit title_lower).toFinset
    if query_words = ∅ then 0
    else
      let matching_words := query_words ∩ title_words
      let match_percentage := matching_words.card * 100 / query_words.card
      if 70 ≤ match_percentage then match_percentage else 0

/-! ## Ranking pipeline (`handle_book_download`, downloader.py lines 1045-1057)

Raw results are scored, score-0 entries dropped, the rest sorted in
descending relevance with Python's stable `list.sort(key=..., reverse=True)`
(embedded as `List.mergeSort`, which is likewise a stable sort), and the
top 15 kept. -/

structure SearchResult where
  source : String
  title : String
  author : String
deriving DecidableEq

structure RankedResult where
  result : SearchResult
  relevance : Nat
deriving DecidableEq

/-- The filtering loop: score each raw result, keep those with score > 0,
attaching the relevance score (downloader.py lines 1046-1051). -/
def scoreResults (query : String) (results : List SearchResult) : List RankedResult :=
  results.filterMap fun r =>
    let score := calculate_relevance query r.title
    if 0 < score then some ⟨r, score⟩ else none

/-- Comparator of `scored_results.sort(key=lambda x: x.relevance, reverse=True)`:
descending by relevance, stable on ties. -/
def relevanceLe (a b : RankedResult) : Bool :=
  decide (b.relevance ≤ a.relevance)

/-- The stable descending sort of the scored results (line 1054). -/
def sortScored (l : List RankedResult) : List RankedResult :=
  l.mergeSort relevanceLe

/-- The ranked result set offered for selection: sort, then truncate to the
top 15 (lines 1054-1057). -/
def rankResults (query : String) (results : List SearchResult) : List RankedResult :=
  (sortScored (scoreResults query results)).take 15

/-! ## Transfer executor

The network is modelled by an oracle giving, per attempt, the outcome of
that attempt's interaction with the endpoint:

* `fullSuccess` — the request succeeded and the file body was streamed to
  the destination file completely;
* `httpError code` — `raise_for_status()` raised `requests.exceptions.HTTPError`
  with the given status code (raised before the destination file is
  opened, so the attempt writes nothing);
* `netTimeout wrote` / `connFailure wrote` — `requests.exceptions.Timeout`
  resp. `requests.exceptions.ConnectionError` was raised; `wrote` records
  whether the exception hit after the destination file had been opened
  and partially written (mid-stream failure) or before any write;
* `otherFailure` — any other exception (caught only by a bare
  `except Exception` handler), raised before any write.

For `download_file_ia` the preliminary visit of the item page on attempt 0
(`session.get(item_page_url, ...)`) can only raise `Timeout`/`ConnectionError`
(no `raise_for_status` is called on it) or another exception, all handled
by the very same `except` clauses as the main request; the oracle therefore
reports the combined outcome of the attempt. -/

inductive AttemptResult where
  | fullSuccess
  | httpError (code : Nat)
  | netTimeout (wrote : Bool)
  | connFailure (wrote : Bool)
  | otherFailure
deriving DecidableEq

/-- How an attempt's exception dispatches among the `except` clauses:
`success`, give up on this strategy (`stop`), or retry after backoff
(`retry`).  The `wrote` flag records whether the attempt left bytes in the
destination file. -/
inductive AttemptClass where
  | success
  | stop (wrote : Bool)
  | retry (wrote : Bool)
deriving DecidableEq

/-- Exception dispatch of `download_file_ia` (downloader.py lines 710-740):
HTTP 401 breaks the strategy, HTTP 403 and 503 are retryable, other HTTP
codes break; `Timeout`/`ConnectionError` are retryable; any other
exception breaks. -/
def classifyIA : AttemptResult → AttemptClass
  | .fullSuccess => .success
  | .httpError code =>
      if code = 401 then .stop false
      else if code = 403 then .retry false
      else if code = 503 then .retry false
      else .stop false
  | .netTimeout w => .retry w
  | .connFailure w => .retry w
  | .otherFailure => .stop false

/-- Exception dispatch of the direct-URL branch of `download_file`
(downloader.py lines 776-807): only `Timeout`/`ConnectionError` are
retryable; every other exception — including `HTTPError` from a 403 or
503 response — falls into the final `except Exception` clause and is
terminal. -/
def classifyDirect : AttemptResult → AttemptClass
  | .fullSuccess => .success
  | .httpError _ => .stop false
  | .netTimeout w => .retry w
  | .connFailure w => .retry w
  | .otherFailure => .stop false

/-- Outcome of running the retry loop of one strategy: whether it
returned success, whether the destination file exists afterwards, the
number of attempts made, and the list of backoff sleeps (in seconds)
performed between attempts. -/
structure StratOut where
  success : Bool
  fileEx : Bool
  attempts : Nat
  sleeps : List Nat
deriving DecidableEq

/-- One iteration of `for attempt in range(3)` in `download_file_ia`
(downloader.py lines 686-740).  `fEx` is whether the destination file
exists on entry; `next` continues with the following attempt.  A
retryable failure retries only when `attempt < 2`, after sleeping
`2 ** attempt` seconds; otherwise the strategy is abandoned (`break`). -/
def iaAttempt (o : Nat → AttemptResult) (attempt : Nat) (fEx : Bool)
    (next : Bool → StratOut) : StratOut :=
  match classifyIA (o attempt) with
  | .success => ⟨true, true, 1, []⟩
  | .stop w => ⟨false, fEx || w, 1, []⟩
  | .retry w =>
      if attempt < 2 then
        let r := next (fEx || w)
        ⟨r.success, r.fileEx, r.attempts + 1, 2 ^ attempt :: r.sleeps⟩
      else ⟨false, fEx || w, 1, []⟩

/-- The three-attempt retry loop of one `download_file_ia` strategy
(`for attempt in range(3)`, lines 686-740), with the loop unrolled; the
third attempt never retries because of the `attempt < 2` guards. -/
def iaStrategy (o : Nat → AttemptResult) (fEx : Bool) : StratOut :=
  iaAttempt o 0 fEx fun f0 =>
    iaAttempt o 1 f0 fun f1 =>
      iaAttempt o 2 f1 fun f2 => ⟨false, f2, 0, []⟩

/-- Result of a whole transfer: final outcome, whether a file is left at
the destination path, and the per-strategy traces of the strategies that
were run. -/
structure TransferResult where
  success : Bool
  fileEx : Bool
  strategyTraces : List StratOut
deriving DecidableEq

/-- `download_file_ia` (downloader.py lines 642-750): two strategies
(direct download endpoint, then the serve endpoint) are tried in order;
the first success returns immediately.  After both strategies fail, any
file at the destination path is removed (`os.remove`, line 749) before
returning failure.  The oracle's first argument is the strategy index. -/
def download_file_ia (o : Nat → Nat → AttemptResult) : TransferResult :=
  let r0 := iaStrategy (o 0) false
  if r0.success then ⟨true, true, [r0]⟩
  else
    let r1 := iaStrategy (o 1) r0.fileEx
    if r1.success then ⟨true, true, [r0, r1]⟩
    else ⟨false, false, [r0, r1]⟩

/-- One iteration of `for attempt in range(3)` in the direct-URL branch of
`download_file` (downloader.py lines 776-807).  Terminal failures delete
any file at the destination path (`os.remove`, lines 800-801 and 805-806)
before returning, so `fileEx` is `false` on every failure exit. -/
def directAttempt (o : Nat → AttemptResult) (attempt : Nat) (fEx : Bool)
    (next : Bool → StratOut) : StratOut :=
  match classifyDirect (o attempt) with
  | .success => ⟨true, true, 1, []⟩
  | .stop _ => ⟨false, false, 1, []⟩
  | .retry w =>
      if attempt < 2 then
        let r := next (fEx || w)
        ⟨r.success, r.fileEx, r.attempts + 1, 2 ^ attempt :: r.sleeps⟩
      else ⟨false, false, 1, []⟩

/-- The direct-URL branch of `download_file` (string URL, lines 759-807):
a single strategy with the three-attempt retry loop unrolled. -/
def download_file_direct (o : Nat → AttemptResult) : TransferResult :=
  let r :=
    directAttempt o 0 false fun f0 =>
      directAttempt o 1 f0 fun f1 =>
        directAttempt o 2 f1 fun f2 => ⟨false, f2, 0, []⟩
  ⟨r.success, r.fileEx, [r]⟩

/-! ### Anna's Archive fallback transfer

The requests-based Anna's Archive branch of `download_file`
(downloader.py lines 822-979, used when Playwright is unavailable):
fetch the book page looking for a slow-download link, follow it, detect
DDoS-Guard blocking, collect candidate download links, and try up to
five of them in order.  The network/page behaviour is abstracted by
`AnnasNet`; each candidate link fetch has one of four outcomes. -/

inductive CandidateFetch where
  | notFile
  | fileOk
  | midStreamErr
  | fetchErr
deriving DecidableEq

structure AnnasNet where
  slowLinkFound : Bool
  ddosBlocked : Bool
  candidates : List CandidateFetch
deriving DecidableEq

/-- The candidate loop (`for candidate_url in download_candidates[:5]`,
lines 909-965): a candidate that passes the status/content-type check is
streamed to the destination file (`fileOk` — full success, or
`midStreamErr` — an exception mid-stream leaves a partial file and the
loop moves on via `except Exception: continue`); `notFile` fails the
content-type check and writes nothing; `fetchErr` raises before the file
is opened.  No cleanup is performed on any failure exit. -/
def annasCandidateLoop : List CandidateFetch → Bool → Bool × Bool
  | [], fEx => (false, fEx)
  | c :: cs, fEx =>
    match c with
    | .fileOk => (true, true)
    | .midStreamErr => annasCandidateLoop cs true
    | .notFile => annasCandidateLoop cs fEx
    | .fetchErr => annasCandidateLoop cs fEx

/-- The requests-based Anna's Archive transfer (lines 822-979): returns
`(success, fileExists)`. -/
def download_file_annas (net : AnnasNet) : TransferResult :=
  if !net.slowLinkFound then ⟨false, false, []⟩
  else if net.ddosBlocked then ⟨false, false, []⟩
  else
    let r := annasCandidateLoop (net.candidates.take 5) false
    ⟨r.1, r.2, []⟩

/-! ## Source adapters and search orchestrator

One adapter call is modelled by a `NetEvent`: the outcome of the
adapter's HTTP request, where a 2xx/3xx response carries a parse payload
(`items` — the site-specific structural extraction succeeds and yields
the listed records; `malformed` — `response.json()` or the selector
logic raises).  `requests.get` itself raises only `Timeout`,
`ConnectionError` or some other exception; it does not raise on a bad
status code. -/

inductive ParsePayload (α : Type) where
  | items (l : List α)
  | malformed
deriving DecidableEq

inductive NetEvent (α : Type) where
  | timeout
  | connError
  | otherExc
  | ok (status : Nat) (payload : ParsePayload α)
deriving DecidableEq

/-- `search_gutendex` (downloader.py lines 73-88): the whole body is
wrapped in `try/except Exception`, returning `[]` on any failure; a bad
status (`raise_for_status`, which raises exactly for 400-599) and a
malformed payload also yield `[]`.  There is no error-tag channel: the
function returns a bare list. -/
def search_gutendex (net : NetEvent SearchResult) : List SearchResult :=
  match net with
  | .timeout => []
  | .connError => []
  | .otherExc => []
  | .ok status payload =>
    if 400 ≤ status ∧ status < 600 then []
    else
      match payload with
      | .items l => l
      | .malformed => []

structure MangaResult where
  title : String
  url : String
  site : String
deriving DecidableEq

structure Site where
  name : String
  url : String
deriving DecidableEq

/-- The `MANGA_SITES` table (downloader.py lines 49-69). -/
def MANGA_SITES : List Site :=
  [⟨"Asura Scans", "https://asuratoon.com"⟩,
   ⟨"Chapmanganato", "https://chapmanganato.to"⟩,
   ⟨"InManga", "https://inmanga.com"⟩,
   ⟨"LHTranslation", "https://lhtranslation.net"⟩,
   ⟨"LSComic", "https://lscomic.com"⟩,
   ⟨"Manga Monks", "https://mangamonks.com"⟩,
   ⟨"MangaBat", "https://mangabat.com"⟩,
   ⟨"MangaDex", "https://mangadex.org"⟩,
   ⟨"Mangakakalot.com", "https://mangakakalot.com"⟩,
   ⟨"Mangakakalot.tv", "https://mangakakalot.tv"⟩,
   ⟨"Manganato", "https://manganato.com"⟩,
   ⟨"Manganelo.com", "https://manganelo.com"⟩,
   ⟨"Manganelo.tv", "https://manganelo.tv"⟩,
   ⟨"MangaPanda", "https://mangapanda.in"⟩,
   ⟨"NatoManga", "https://www.natomanga.com"⟩,
   ⟨"ReadMangaBat", "https://readmangabat.com"⟩,
   ⟨"TCB Scans (.com)", "https://tcbscans.com"⟩,
   ⟨"TCB Scans (.net)", "https://www.tcbscans.net"⟩,
   ⟨"TCB Scans (.org)", "https://www.tcbscans.org"⟩]

/-- The shared per-site request/parse shape inside `search_manga_site`
(downloader.py lines 1129-1211): exceptions map to the soft error tags
set by the `except` clauses at lines 1213-1218; a non-200 status falls
through the `if response.status_code == 200` guard leaving `results = []`
and `error_msg = None`; a 200 response is parsed, the HTML-scraping
branches keeping at most 10 items (`items[:10]`; the MangaDex branch
requests `limit=10` from the API instead). -/
def siteRequest (limit10 : Bool) (net : NetEvent MangaResult) :
    List MangaResult × Option String :=
  match net with
  | .timeout => ([], some "timeout")
  | .connError => ([], some "blocked/unreachable")
  | .otherExc => ([], some "error")
  | .ok status payload =>
    if status = 200 then
      match payload with
      | .items l => (if limit10 then l.take 10 else l, none)
      | .malformed => ([], some "error")
    else ([], none)

/-- `search_manga_site` (downloader.py lines 1118-1220): dispatch on URL
substring; sites with no matching branch issue no request at all and
return `([], None)`. -/
def search_manga_site (site : Site) (net : NetEvent MangaResult) :
    List MangaResult × Option String :=
  if pyIn "mangadex.org".data site.url.data then siteRequest false net
  else if pyIn "manganato.com".data site.url.data then siteRequest true net
  else if pyIn "mangakakalot.com".data site.url.data then siteRequest true net
  else if pyIn "natomanga.com".data site.url.data then siteRequest true net
  else if pyIn "chapmanganato.to".data site.url.data then siteRequest true net
  else ([], none)

/-- Contribution of one site to `all_results` in `search_all_manga_sites`
(downloader.py lines 1230-1243): results are appended only when the
adapter reported no error (`if error: ... elif results: all_results.extend`;
skipping an empty success list is the same as appending it). -/
def siteContribution (p : List MangaResult × Option String) : List MangaResult :=
  match p.2 with
  | none => p.1
  | some _ => []

def searchAllAux (o : Nat → NetEvent MangaResult) :
    Nat → List Site → List MangaResult
  | _, [] => []
  | i, s :: rest =>
    siteContribution (search_manga_site s (o i)) ++ searchAllAux o (i + 1) rest

/-- `search_all_manga_sites` (downloader.py lines 1222-1254): every site
is queried in registration order; the oracle gives site `i`'s network
outcome. -/
def search_all_manga_sites (o : Nat → NetEvent MangaResult) : List MangaResult :=
  searchAllAux o 0 MANGA_SITES

/-! ## Artifact normalizer (`deduplicate_chapters`, downloader.py lines 1256-1312)

The grouping step parses each `*.cbz` filename with

  `re.compile(r'^(.+?)\s+(?:\d+\s+-\s+)?Chapter\s+(\d+)', re.IGNORECASE).search(file)`

Because the pattern is anchored with `^`, `search` can only match at
position 0.  In this pattern every `\s+`/`\d+` is immediately followed by
a token drawn from a disjoint character class (a digit or dash or the
literal `Chapter` never begins with whitespace, whitespace is not a
digit), so the backtracking the `re` engine performs inside the suffix is
equivalent to maximal munch; the one real search is the lazy group
`(.+?)`, which tries the shortest prefix first.  `.` does not match a
newline. -/

/-- Case-insensitive literal match: consume `lit` (given lowercase) at the
head of `cs`. -/
def stripCaseLit : List Char → List Char → Option (List Char)
  | [], rest => some rest
  | _ :: _, [] => none
  | l :: ls, c :: cs => if c.toLower = l then stripCaseLit ls cs else none

/-- `Chapter\s+(\d+)` at the head of `cs`; returns the captured digits. -/
def matchChapterTail (cs : List Char) : Option (List Char) :=
  match stripCaseLit "chapter".data cs with
  | none => none
  | some r1 =>
    if (r1.takeWhile pyIsSpace).isEmpty then none
    else
      let r2 := r1.dropWhile pyIsSpace
      let ds := r2.takeWhile Char.isDigit
      if ds.isEmpty then none else some ds

/-- The optional volume marker `\d+\s+-\s+` at the head of `cs`; returns
the remainder on success. -/
def matchVolumeMarker (cs : List Char) : Option (List Char) :=
  if (cs.takeWhile Char.isDigit).isEmpty then none
  else
    let r1 := cs.dropWhile Char.isDigit
    if (r1.takeWhile pyIsSpace).isEmpty then none
    else
      match r1.dropWhile pyIsSpace with
      | '-' :: r2 =>
        if (r2.takeWhile pyIsSpace).isEmpty then none
        else some (r2.dropWhile pyIsSpace)
      | _ => none

/-- `\s+(?:\d+\s+-\s+)?Chapter\s+(\d+)` at the head of `cs` (the suffix of
the pattern after the lazy series group); returns the captured digits.
The optional group is greedy: it is tried first, falling back to the
skipped alternative if the rest of the pattern then fails. -/
def matchAfterSeries (cs : List Char) : Option (List Char) :=
  if (cs.takeWhile pyIsSpace).isEmpty then none
  else
    let r := cs.dropWhile pyIsSpace
    match matchVolumeMarker r with
    | some r2 =>
      match matchChapterTail r2 with
      | some ds => some ds
      | none => matchChapterTail r
    | none => matchChapterTail r

/-- The lazy series group `^(.+?)`: try group-1 length 1, 2, ... in order;
`acc` holds the reversed candidate prefix.  `.` never matches a newline,
so the search is abandoned once one is reached. -/
def seriesSearch : List Char → List Char → Option (List Char × List Char)
  | _, [] => none
  | acc, c :: cs =>
    if c = '\n' then none
    else
      match matchAfterSeries cs with
      | some ds => some ((c :: acc).reverse, ds)
      | none => seriesSearch (c :: acc) cs

/-- `series_chapter_pattern.search(file)`: the full regex match, returning
(group 1, group 2) = (series prefix, chapter digit run). -/
def series_chapter_pattern (name : List Char) : Option (List Char × List Char) :=
  seriesSearch [] name

/-- The `(series_name, chapter_num)` grouping key of a filename
(downloader.py lines 1271-1275): group 1 is stripped
(`match.group(1).strip()`), group 2 is the raw digit string. -/
def fileKey (f : String) : Option (String × String) :=
  match series_chapter_pattern f.data with
  | some (series, ds) => some (⟨pyStrip series⟩, ⟨ds⟩)
  | none => none

/-- `glob.glob("*.cbz")` membership test (suffix match). -/
def isCbz (f : String) : Bool :=
  ".cbz".data.isSuffixOf f.data

/-- The files that `chapters_map` associates with key `k` (in discovery
order). -/
def groupOf (cbz : List String) (k : String × String) : List String :=
  cbz.filter fun f => decide (fileKey f = some k)

/-- Python's sort key `lambda x: (len(x), x)`: ascending by length, ties
by code-point lexicographic order. -/
def charListLt : List Char → List Char → Bool
  | [], [] => false
  | [], _ :: _ => true
  | _ :: _, [] => false
  | a :: as, b :: bs => if a < b then true else if b < a then false else charListLt as bs

def pyKeyLe (a b : String) : Bool :=
  decide (a.data.length < b.data.length)
  || (decide (a.data.length = b.data.length) && (charListLt a.data b.data || decide (a = b)))

/-- Stable insertion into a sorted list under `pyKeyLe`. -/
def pySortInsert (f : String) : List String → List String
  | [] => [f]
  | g :: gs => if pyKeyLe f g then f :: g :: gs else g :: pySortInsert f gs

/-- `files.sort(key=lambda x: (len(x), x))`: Python's stable sort.  Since
`pyKeyLe` is a total preorder whose ties are exactly equal strings, every
correct sort produces the same list; a structurally recursive stable
insertion sort is used so that the definition evaluates by kernel
reduction. -/
def pySort : List String → List String
  | [] => []
  | f :: fs => pySortInsert f (pySort fs)

/-- The files deleted for one key (downloader.py lines 1286-1306): when a
group has more than one member it is sorted by `(len, lex)` and every
file but the first is removed. -/
def removedForKey (cbz : List String) (k : String × String) : List String :=
  let g := groupOf cbz k
  if 1 < g.length then (pySort g).tail else []

/-- All files deleted by one `deduplicate_chapters` pass.  The Python dict
iterates keys in insertion order; since the per-key removals are disjoint
and the final directory state is a set of files, any enumeration of the
distinct keys yields the same removals, so `dedup` is used here. -/
def removedFiles (files : List String) : List String :=
  let cbz := files.filter isCbz
  ((cbz.filterMap fileKey).dedup).flatMap (removedForKey cbz)

/-- The directory contents after one `deduplicate_chapters` pass: every
removed file is deleted (`os.remove`), everything else survives. -/
def deduplicate_chapters (files : List String) : List String :=
  files.filter fun f => !((removedFiles files).contains f)

/-! ## Manga download invocation (`download_manga`, downloader.py lines 1433-1518) -/

inductive ChildExit where
  | success
  | failure (code : Nat)
  | notFound
deriving DecidableEq

structure MangaRunOutcome where
  files : List String
  dedupAttempted : Bool
  errorExit : Bool
  dirRestored : Bool
deriving DecidableEq

/-- `download_manga`: the external `manga-downloader` child process is run
with `subprocess.run(cmd, check=True)` inside a `try`.  Only when it
exits zero does control reach the `deduplicate_chapters()` call (lines
1482-1489); a non-zero exit raises `CalledProcessError`, whose handler
prints diagnostics and calls `sys.exit(1)` (line 1507) without any
cleanup, and a missing binary raises `FileNotFoundError` with the same
shape.  The working directory is restored on every exit path (the
explicit `os.chdir(original_dir)` calls and the `finally` block).
`filesAfterFetch` is the directory contents once the child process has
finished. -/
def download_manga (child : ChildExit) (filesAfterFetch : List String) :
    MangaRunOutcome :=
  match child with
  | .success => ⟨deduplicate_chapters filesAfterFetch, true, false, true⟩
  | .failure _ => ⟨filesAfterFetch, false, true, true⟩
  | .notFound => ⟨filesAfterFetch, false, true, true⟩

/-! ## Helper lemmas on the Python string primitives -/

theorem toLower_of_space {c : Char} (h : pyIsSpace c = true) : c.toLower = c := by
  simp only [pyIsSpace, Bool.or_eq_true, beq_iff_eq] at h
  rcases h with ((((rfl | rfl) | rfl) | rfl) | rfl) | rfl <;> decide

theorem pyIsSpace_eq_false_of_ge {x : Char} (hx : 64 < x.toNat) :
    pyIsSpace x = false := by
  simp only [pyIsSpace, Bool.or_eq_false_iff, beq_eq_false_iff_ne, ne_eq]
  refine ⟨⟨⟨⟨⟨?_, ?_⟩, ?_⟩, ?_⟩, ?_⟩, ?_⟩ <;> rintro rfl <;> revert hx <;> decide

theorem pyIsSpace_toLower (c : Char) : pyIsSpace c.toLower = pyIsSpace c := by
  have hlow : c.toLower =
      if c.toNat ≥ 65 ∧ c.toNat ≤ 90 then Char.ofNat (c.toNat + 32) else c := rfl
  rw [hlow]
  by_cases h : c.toNat ≥ 65 ∧ c.toNat ≤ 90
  · rw [if_pos h]
    have hv : (c.toNat + 32).isValidChar := Or.inl (by omega)
    have ht : (Char.ofNat (c.toNat + 32)).toNat = c.toNat + 32 := by
      simp only [Char.ofNat, Char.toNat, Char.ofNatAux]
      rw [dif_pos (show (c.val.toNat + 32).isValidChar from hv)]
      rfl
    rw [@pyIsSpace_eq_false_of_ge (Char.ofNat (c.toNat + 32)) (by omega),
      pyIsSpace_eq_false_of_ge (by omega)]
  · rw [if_neg h]

theorem dropWhile_eq_nil_of_forall {p : α → Bool} {l : List α}
    (h : ∀ x ∈ l, p x = true) : l.dropWhile p = [] := by
  induction l with
  | nil => rfl
  | cons c cs ih =>
    rw [List.dropWhile_cons, if_pos (h c (List.mem_cons_self c cs))]
    exact ih fun x hx => h x (List.mem_cons_of_mem c hx)

theorem forall_of_dropWhile_eq_nil {p : α → Bool} {l : List α}
    (h : l.dropWhile p = []) : ∀ x ∈ l, p x = true := by
  induction l with
  | nil => exact fun x hx => absurd hx (List.not_mem_nil x)
  | cons c cs ih =>
    rw [List.dropWhile_cons] at h
    split at h
    · rename_i hc
      intro x hx
      rcases List.mem_cons.mp hx with rfl | hx
      · exact hc
      · exact ih h x hx
    · exact absurd h (List.cons_ne_nil c cs)

theorem pyStrip_eq_nil_iff {l : List Char} :
    pyStrip l = [] ↔ ∀ c ∈ l, pyIsSpace c = true := by
  unfold pyStrip
  rw [List.reverse_eq_nil_iff]
  constructor
  · intro h
    have hd : l.dropWhile pyIsSpace = [] := by
      by_contra hne
      have hall := forall_of_dropWhile_eq_nil h
      have hmem : (l.dropWhile pyIsSpace).head hne ∈ (l.dropWhile pyIsSpace).reverse :=
        List.mem_reverse.mpr (List.head_mem hne)
      have htrue := hall _ hmem
      rw [List.head_dropWhile_not pyIsSpace l hne] at htrue
      exact Bool.false_ne_true htrue
    exact forall_of_dropWhile_eq_nil hd
  · intro h
    rw [dropWhile_eq_nil_of_forall h]
    rfl

theorem pyStrip_pyLower_eq_nil_iff {l : List Char} :
    pyStrip (pyLower l) = [] ↔ ∀ c ∈ l, pyIsSpace c = true := by
  rw [pyStrip_eq_nil_iff]
  unfold pyLower
  constructor
  · intro h c hc
    have := h c.toLower (List.mem_map_of_mem Char.toLower hc)
    rwa [pyIsSpace_toLower] at this
  · intro h c hc
    rcases List.mem_map.mp hc with ⟨d, hd, rfl⟩
    rw [pyIsSpace_toLower]
    exact h d hd

/-! ## Claims about the relevance ranker -/

/-- C4: for every (query, title) pair, `calculate_relevance` is total
(by construction in this embedding), returns a value bounded by 100, and
scores a query against itself as 100. -/
theorem calculate_relevance_total (q t : String) :
    calculate_relevance q t ≤ 100 ∧ calculate_relevance q q = 100 := by
  constructor
  · simp only [calculate_relevance]
    split
    · exact Nat.le_refl 100
    · split
      · omega
      · split
        · omega
        · split
          · omega
          · split
            · rename_i hne hpct
              have hsub : (((pySplit (pyStrip (pyLower q.data))).toFinset ∩
                  (pySplit (pyStrip (pyLower t.data))).toFinset).card ≤
                  (pySplit (pyStrip (pyLower q.data))).toFinset.card) :=
                Finset.card_le_card Finset.inter_subset_left
              have hpos : 0 < (pySplit (pyStrip (pyLower q.data))).toFinset.card := by
                rcases Nat.eq_zero_or_pos (pySplit (pyStrip (pyLower q.data))).toFinset.card with h0 | h
                · exact absurd (Finset.card_eq_zero.mp h0) hne
                · exact h
              calc ((pySplit (pyStrip (pyLower q.data))).toFinset ∩
                    (pySplit (pyStrip (pyLower t.data))).toFinset).card * 100 /
                    (pySplit (pyStrip (pyLower q.data))).toFinset.card
                  ≤ (pySplit (pyStrip (pyLower q.data))).toFinset.card * 100 /
                    (pySplit (pyStrip (pyLower q.data))).toFinset.card :=
                    Nat.div_le_div_right (Nat.mul_le_mul_right 100 hsub)
                _ = 100 := by
                    rw [Nat.mul_comm]
                    exact Nat.mul_div_cancel 100 hpos
            · omega
  · unfold calculate_relevance
    simp

/-- C10 (implicit): a query that is empty or all-whitespace normalizes to
the empty string, and every title starts with the empty string, so the
score is 90 when the title has non-whitespace content (and 100 when the
title also normalizes to empty, via the exact-match branch). -/
theorem calculate_relevance_empty_query (q t : String)
    (hq : ∀ c ∈ q.data, pyIsSpace c = true) :
    ((¬ ∀ c ∈ t.data, pyIsSpace c = true) → calculate_relevance q t = 90) ∧
    ((∀ c ∈ t.data, pyIsSpace c = true) → calculate_relevance q t = 100) := by
  have hqnil : pyStrip (pyLower q.data) = [] := pyStrip_pyLower_eq_nil_iff.mpr hq
  constructor
  · intro ht
    have htne : pyStrip (pyLower t.data) ≠ [] := by
      intro h
      exact ht (pyStrip_pyLower_eq_nil_iff.mp h)
    unfold calculate_relevance
    rw [hqnil, if_neg (fun h => htne h.symm), if_pos]
    unfold pyStartswith
    exact List.isPrefixOf_nil_left
  · intro ht
    have htnil : pyStrip (pyLower t.data) = [] := pyStrip_pyLower_eq_nil_iff.mpr ht
    unfold calculate_relevance
    rw [hqnil, htnil, if_pos rfl]

/-- Witness for C10 at a concrete whitespace query and concrete titles. -/
theorem calculate_relevance_empty_query_witness :
    calculate_relevance "  " "Emma" = 90 ∧ calculate_relevance " " "  " = 100 := by
  constructor
  · exact (calculate_relevance_empty_query "  " "Emma" (by decide)).1 (by decide)
  · exact (calculate_relevance_empty_query " " "  " (by decide)).2 (by decide)

theorem relevanceLe_trans (a b c : RankedResult) :
    relevanceLe a b → relevanceLe b c → relevanceLe a c := by
  simp only [relevanceLe, decide_eq_true_eq]
  omega

theorem relevanceLe_total (a b : RankedResult) : relevanceLe a b || relevanceLe b a := by
  simp only [relevanceLe, Bool.or_eq_true, decide_eq_true_eq]
  omega

/-- C3: the ranked result set offered for selection has length at most 15,
contains no score-0 entry, and is sorted non-increasingly by relevance;
ties keep their original discovery order (formally: for each score value,
filtering the sorted list down to that score yields exactly the
discovery-ordered sublist of the scored results with that score), and the
offered set is the 15-element prefix of that stably sorted list. -/
theorem rankResults_spec (query : String) (results : List SearchResult) :
    (rankResults query results).length ≤ 15 ∧
    (∀ r ∈ rankResults query results, 0 < r.relevance) ∧
    List.Pairwise (fun a b : RankedResult => b.relevance ≤ a.relevance)
      (rankResults query results) ∧
    (∀ s : Nat,
      (sortScored (scoreResults query results)).filter (fun r => r.relevance == s) =
      (scoreResults query results).filter (fun r => r.relevance == s)) ∧
    rankResults query results = (sortScored (scoreResults query results)).take 15 := by
  refine ⟨List.length_take_le 15 _, ?_, ?_, ?_, rfl⟩
  · intro r hr
    have hr2 : r ∈ sortScored (scoreResults query results) := List.mem_of_mem_take hr
    have hr3 : r ∈ scoreResults query results := by
      unfold sortScored at hr2
      exact List.mem_mergeSort.mp hr2
    unfold scoreResults at hr3
    rcases List.mem_filterMap.mp hr3 with ⟨a, _, hfa⟩
    dsimp only at hfa
    split at hfa
    · rename_i hpos
      injection hfa with h
      subst h
      exact hpos
    · exact absurd hfa (by simp)
  · have hs := @List.sorted_mergeSort _ relevanceLe relevanceLe_trans
      relevanceLe_total (scoreResults query results)
    have hp : List.Pairwise (fun a b : RankedResult => b.relevance ≤ a.relevance)
        (sortScored (scoreResults query results)) := by
      unfold sortScored
      exact hs.imp fun h => by simpa [relevanceLe] using h
    exact hp.sublist (List.take_sublist 15 _)
  · intro s
    have hpair : ((scoreResults query results).filter
        (fun r => r.relevance == s)).Pairwise (fun a b => relevanceLe a b) := by
      apply List.pairwise_of_forall_mem_list
      intro a ha b hb
      have ha2 : a.relevance = s := by simpa using (List.mem_filter.mp ha).2
      have hb2 : b.relevance = s := by simpa using (List.mem_filter.mp hb).2
      simp [relevanceLe, ha2, hb2]
    have hc_sub : List.Sublist
        ((scoreResults query results).filter (fun r => r.relevance == s))
        (sortScored (scoreResults query results)) := by
      unfold sortScored
      exact List.sublist_mergeSort relevanceLe_trans relevanceLe_total hpair
        (List.filter_sublist _)
    have hperm : List.Perm
        ((sortScored (scoreResults query results)).filter (fun r => r.relevance == s))
        ((scoreResults query results).filter (fun r => r.relevance == s)) := by
      unfold sortScored
      exact (List.mergeSort_perm (scoreResults query results) relevanceLe).filter _
    have hcc : (((scoreResults query results).filter (fun r => r.relevance == s)).filter
        (fun r => r.relevance == s)) =
        (scoreResults query results).filter (fun r => r.relevance == s) :=
      List.filter_eq_self.mpr fun a ha => (List.mem_filter.mp ha).2
    have hsub2 : List.Sublist
        ((scoreResults query results).filter (fun r => r.relevance == s))
        ((sortScored (scoreResults query results)).filter (fun r => r.relevance == s)) := by
      have := hc_sub.filter (fun r => r.relevance == s)
      rwa [hcc] at this
    exact (hsub2.eq_of_length hperm.length_eq.symm).symm

/-! ## Claims about the transfer executor -/

theorem iaStrategy_bounds (o : Nat → AttemptResult) (fEx : Bool) :
    (iaStrategy o fEx).attempts ≤ 3 ∧ List.Sublist (iaStrategy o fEx).sleeps [1, 2] := by
  unfold iaStrategy iaAttempt
  rcases classifyIA (o 0) with _ | w0 | w0 <;>
    rcases classifyIA (o 1) with _ | w1 | w1 <;>
      rcases classifyIA (o 2) with _ | w2 | w2 <;>
        simp

/-- Every strategy trace of an Internet Archive transfer makes at most 3
attempts, with backoff sleeps forming an initial part of 1s, 2s. -/
theorem download_file_ia_bounds (o : Nat → Nat → AttemptResult) :
    ∀ tr ∈ (download_file_ia o).strategyTraces,
      tr.attempts ≤ 3 ∧ List.Sublist tr.sleeps [1, 2] := by
  unfold download_file_ia
  dsimp only
  split
  · intro tr htr
    rcases List.mem_singleton.mp htr with rfl
    exact iaStrategy_bounds _ _
  · split
    · intro tr htr
      rcases List.mem_cons.mp htr with rfl | htr
      · exact iaStrategy_bounds _ _
      · rcases List.mem_singleton.mp htr with rfl
        exact iaStrategy_bounds _ _
    · intro tr htr
      rcases List.mem_cons.mp htr with rfl | htr
      · exact iaStrategy_bounds _ _
      · rcases List.mem_singleton.mp htr with rfl
        exact iaStrategy_bounds _ _

/-- C1 counterexample: in the direct-URL transfer path, an endpoint that
fails with HTTP 503 on the first attempt is NOT retried — the transfer
fails after exactly one attempt with no backoff sleeps, so a 503-503-ok
endpoint does not end in success on this strategy. -/
theorem direct_503_not_retried :
    download_file_direct (fun n => if n < 2 then .httpError 503 else .fullSuccess) =
      ⟨false, false, [⟨false, false, 1, []⟩]⟩ := by
  decide

/-- C1 (amended): the Internet Archive path retries HTTP 403/503 and
network timeouts/connection failures with at most 3 attempts per strategy
and sleeps of 1s then 2s — in particular a 503-503-ok endpoint yields a
successful transfer after 3 attempts — while the direct-URL path retries
only network timeouts/connection failures and treats any HTTP error
(403/503 included) as terminal on the first attempt. -/
theorem transfer_retry_spec (o : Nat → Nat → AttemptResult)
    (h0 : o 0 0 = .httpError 503) (h1 : o 0 1 = .httpError 503)
    (h2 : o 0 2 = .fullSuccess) :
    download_file_ia o = ⟨true, true, [⟨true, true, 3, [1, 2]⟩]⟩ ∧
    (∀ o2 : Nat → Nat → AttemptResult, ∀ tr ∈ (download_file_ia o2).strategyTraces,
      tr.attempts ≤ 3 ∧ List.Sublist tr.sleeps [1, 2]) ∧
    (∀ od : Nat → AttemptResult, ∀ w0 w1 : Bool,
      od 0 = .netTimeout w0 → od 1 = .connFailure w1 → od 2 = .fullSuccess →
      download_file_direct od = ⟨true, true, [⟨true, true, 3, [1, 2]⟩]⟩) ∧
    (∀ od : Nat → AttemptResult, ∀ c : Nat, od 0 = .httpError c →
      download_file_direct od = ⟨false, false, [⟨false, false, 1, []⟩]⟩) := by
  refine ⟨?_, fun o2 => download_file_ia_bounds o2, ?_, ?_⟩
  · simp [download_file_ia, iaStrategy, iaAttempt, h0, h1, h2, classifyIA]
  · intro od w0 w1 hd0 hd1 hd2
    simp [download_file_direct, directAttempt, hd0, hd1, hd2, classifyDirect]
  · intro od c hd0
    simp [download_file_direct, directAttempt, hd0, classifyDirect]

/-- Witness for C1's amended theorem at concrete oracles. -/
theorem transfer_retry_spec_witness :
    download_file_ia (fun _ n => if n < 2 then .httpError 503 else .fullSuccess) =
      ⟨true, true, [⟨true, true, 3, [1, 2]⟩]⟩ :=
  (transfer_retry_spec (fun _ n => if n < 2 then .httpError 503 else .fullSuccess)
    rfl rfl rfl).1

/-- C2 counterexample: in the Anna's Archive fallback transfer, a
candidate download that fails mid-stream leaves a partially written file
behind although the transfer returns failure — no cleanup is performed. -/
theorem annas_partial_file :
    download_file_annas ⟨true, false, [.midStreamErr]⟩ = ⟨false, true, []⟩ := by
  decide

/-- C2 (amended): the direct-URL and Internet Archive transfer paths
delete any partially written destination file before returning a terminal
failure; the Anna's Archive fallback path does not. -/
theorem failed_transfer_cleanup :
    (∀ o : Nat → AttemptResult, (download_file_direct o).success = false →
      (download_file_direct o).fileEx = false) ∧
    (∀ o : Nat → Nat → AttemptResult, (download_file_ia o).success = false →
      (download_file_ia o).fileEx = false) := by
  constructor
  · intro o
    unfold download_file_direct directAttempt
    rcases classifyDirect (o 0) with _ | w0 | w0 <;>
      rcases classifyDirect (o 1) with _ | w1 | w1 <;>
        rcases classifyDirect (o 2) with _ | w2 | w2 <;>
          simp
  · intro o
    unfold download_file_ia
    dsimp only
    split
    · simp_all
    · split
      · simp_all
      · simp

/-- Witness for C2's amended theorem at concrete failing oracles. -/
theorem failed_transfer_cleanup_witness :
    (download_file_direct (fun _ => .otherFailure)).fileEx = false ∧
    (download_file_ia (fun _ _ => .netTimeout true)).fileEx = false := by
  constructor
  · exact failed_transfer_cleanup.1 (fun _ => .otherFailure) (by decide)
  · exact failed_transfer_cleanup.2 (fun _ _ => .netTimeout true) (by decide)

/-- C5: a strategy whose endpoint returns HTTP 401 is abandoned after
exactly one attempt with no backoff sleep, the next strategy (in the
Internet Archive path) is still tried, the overall outcome when every
strategy hits 401 is failure, and no file remains at the destination
path; the direct-URL path likewise fails after exactly one attempt with
the file removed. -/
theorem http401_no_retry (o : Nat → Nat → AttemptResult)
    (h0 : o 0 0 = .httpError 401) (h1 : o 1 0 = .httpError 401) :
    (∀ (os : Nat → AttemptResult) (fEx : Bool), os 0 = .httpError 401 →
      iaStrategy os fEx = ⟨false, fEx, 1, []⟩) ∧
    download_file_ia o =
      ⟨false, false, [⟨false, false, 1, []⟩, ⟨false, false, 1, []⟩]⟩ ∧
    (∀ o2 : Nat → Nat → AttemptResult, o2 0 0 = .httpError 401 →
      (download_file_ia o2).strategyTraces.length = 2 ∧
      (download_file_ia o2).strategyTraces.head? = some ⟨false, false, 1, []⟩) ∧
    (∀ od : Nat → AttemptResult, od 0 = .httpError 401 →
      download_file_direct od = ⟨false, false, [⟨false, false, 1, []⟩]⟩) := by
  refine ⟨?_, ?_, ?_, ?_⟩
  · intro os fEx hs
    simp [iaStrategy, iaAttempt, hs, classifyIA]
  · simp [download_file_ia, iaStrategy, iaAttempt, h0, h1, classifyIA]
  · intro o2 h2
    constructor <;>
      simp [download_file_ia, iaStrategy, iaAttempt, h2, classifyIA] <;>
        split <;> simp
  · intro od hd
    simp [download_file_direct, directAttempt, hd, classifyDirect]

/-- Witness for C5 at a concrete all-401 oracle. -/
theorem http401_no_retry_witness :
    download_file_ia (fun _ _ => .httpError 401) =
      ⟨false, false, [⟨false, false, 1, []⟩, ⟨false, false, 1, []⟩]⟩ :=
  (http401_no_retry (fun _ _ => .httpError 401) rfl rfl).2.1

/-! ## Claims about the adapters and the orchestrator -/

/-- The per-site contributions to the aggregate result list, in site
registration order. -/
def siteContributions (o : Nat → NetEvent MangaResult) :
    Nat → List Site → List (List MangaResult)
  | _, [] => []
  | i, s :: rest =>
    siteContribution (search_manga_site s (o i)) :: siteContributions o (i + 1) rest

theorem searchAllAux_eq_flatten (o : Nat → NetEvent MangaResult) :
    ∀ (i : Nat) (sites : List Site),
      searchAllAux o i sites = (siteContributions o i sites).flatten := by
  intro i sites
  induction sites generalizing i with
  | nil => rfl
  | cons s rest ih => simp [searchAllAux, siteContributions, ih]

theorem siteContributions_getD (o : Nat → NetEvent MangaResult) :
    ∀ (sites : List Site) (start j : Nat), j < sites.length →
      (siteContributions o start sites).getD j [] =
      siteContribution (search_manga_site (sites.getD j ⟨"", ""⟩) (o (start + j))) := by
  intro sites
  induction sites with
  | nil =>
    intro start j hj
    exact absurd hj (by simp)
  | cons s rest ih =>
    intro start j hj
    cases j with
    | zero => simp [siteContributions]
    | succ j2 =>
      have harith : start + 1 + j2 = start + (j2 + 1) := by omega
      have := ih (start + 1) j2 (by simpa using hj)
      rw [harith] at this
      simpa [siteContributions] using this

theorem siteContribution_of_exception (s : Site) :
    siteContribution (search_manga_site s .timeout) = [] ∧
    siteContribution (search_manga_site s .connError) = [] ∧
    siteContribution (search_manga_site s .otherExc) = [] := by
  refine ⟨?_, ?_, ?_⟩
  all_goals
    unfold search_manga_site
    repeat' split
    all_goals rfl

/-- C6 (amended): every transport or parse failure is caught inside the
adapter — the result list is empty and, in the manga-site adapter, a soft
error tag is set for exceptions (`timeout`, `blocked/unreachable`,
`error`), but a non-200 status yields `([], none)` with NO tag, and the
book adapters (here `search_gutendex`) return a bare empty list with no
tag channel at all; one site's failure contributes an empty list to the
aggregate without affecting any other site's contribution.  (That no
exception escapes the adapters is expressed by the adapters being total
functions of the network event in this embedding.) -/
theorem adapter_failure_spec :
    (∀ l10 : Bool, siteRequest l10 .timeout = ([], some "timeout") ∧
      siteRequest l10 .connError = ([], some "blocked/unreachable") ∧
      siteRequest l10 .otherExc = ([], some "error") ∧
      siteRequest l10 (.ok 200 .malformed) = ([], some "error")) ∧
    (∀ (l10 : Bool) (st : Nat) (p : ParsePayload MangaResult), st ≠ 200 →
      siteRequest l10 (.ok st p) = ([], none)) ∧
    (search_gutendex .timeout = [] ∧ search_gutendex .connError = [] ∧
      search_gutendex .otherExc = [] ∧
      (∀ (st : Nat) (p : ParsePayload SearchResult), 400 ≤ st → st < 600 →
        search_gutendex (.ok st p) = []) ∧
      (∀ st : Nat, search_gutendex (.ok st .malformed) = [])) ∧
    (∀ o : Nat → NetEvent MangaResult,
      search_all_manga_sites o = (siteContributions o 0 MANGA_SITES).flatten) ∧
    (∀ (o : Nat → NetEvent MangaResult) (i j : Nat),
      j < MANGA_SITES.length → j ≠ i →
      (siteContributions (Function.update o i .timeout) 0 MANGA_SITES).getD j [] =
      (siteContributions o 0 MANGA_SITES).getD j []) ∧
    (∀ (o : Nat → NetEvent MangaResult) (i : Nat), i < MANGA_SITES.length →
      (siteContributions (Function.update o i .timeout) 0 MANGA_SITES).getD i [] = []) := by
  refine ⟨fun l10 => ⟨rfl, rfl, rfl, rfl⟩, ?_, ⟨rfl, rfl, rfl, ?_, ?_⟩, ?_, ?_, ?_⟩
  · intro l10 st p h
    simp only [siteRequest]
    rw [if_neg h]
  · intro st p h1 h2
    simp only [search_gutendex]
    rw [if_pos ⟨h1, h2⟩]
  · intro st
    simp only [search_gutendex]
    split <;> rfl
  · exact fun o => searchAllAux_eq_flatten o 0 MANGA_SITES
  · intro o i j hj hne
    rw [siteContributions_getD _ _ _ _ hj, siteContributions_getD _ _ _ _ hj,
      Function.update_noteq (by omega)]
  · intro o i hi
    rw [siteContributions_getD _ _ _ _ hi, Nat.zero_add, Function.update_same]
    exact (siteContribution_of_exception _).1

/-- Witness for C6's amended theorem at concrete failures. -/
theorem adapter_failure_spec_witness :
    siteRequest true (.ok 503 (.items [])) = ([], none) ∧
    search_gutendex (.ok 503 (.items [⟨"Gutenberg", "Emma", "Jane Austen"⟩])) = [] := by
  obtain ⟨-, h2, h3, -, -, -⟩ := adapter_failure_spec
  exact ⟨h2 true 503 (.items []) (by decide),
    h3.2.2.2.1 503 (.items [⟨"Gutenberg", "Emma", "Jane Austen"⟩]) (by decide) (by decide)⟩

/-- C6 counterexample: a failing HTTP status (503) on a supported manga
site yields an empty result list with NO soft error tag — the claim that
every transport failure comes with a tag identifying the failure kind is
false for non-200 responses. -/
theorem manga_site_non200_no_tag :
    search_manga_site ⟨"MangaDex", "https://mangadex.org"⟩ (.ok 503 (.items [])) =
      ([], none) := by
  decide

/-! ## Claims about the manga download invocation -/

/-- C7 counterexample: when the chapter-fetch child process exits
non-zero, `deduplicate_chapters` is never reached — two duplicate
chapter files already present stay on disk even though a dedup pass
would have removed one of them. -/
theorem manga_failure_skips_dedup :
    download_manga (.failure 1) ["A Chapter 10.cbz", "A Chapter 10 v2.cbz"] =
      ⟨["A Chapter 10.cbz", "A Chapter 10 v2.cbz"], false, true, true⟩ ∧
    deduplicate_chapters ["A Chapter 10.cbz", "A Chapter 10 v2.cbz"] =
      ["A Chapter 10.cbz"] := by
  constructor
  · rfl
  · decide

/-- C7 (amended): duplicate-chapter cleanup runs only when the child
process exits zero; on a non-zero exit (or a missing binary) the error is
reported and the invocation exits without attempting normalization,
leaving the directory contents untouched — only the working directory is
still restored on every path. -/
theorem download_manga_dedup_on_success_only (child : ChildExit) (files : List String) :
    (download_manga child files).dirRestored = true ∧
    ((download_manga child files).dedupAttempted = true ↔ child = .success) ∧
    (child ≠ .success → download_manga child files = ⟨files, false, true, true⟩) := by
  cases child <;> simp [download_manga]

/-- Witness for C7's amended theorem at a failing child process. -/
theorem download_manga_dedup_on_success_only_witness :
    download_manga (.failure 1) ["A Chapter 10.cbz"] =
      ⟨["A Chapter 10.cbz"], false, true, true⟩ :=
  (download_manga_dedup_on_success_only (.failure 1) ["A Chapter 10.cbz"]).2.2 (by decide)

/-! ## Claims about the normalizer -/

theorem pySortInsert_perm (f : String) (l : List String) :
    List.Perm (pySortInsert f l) (f :: l) := by
  induction l with
  | nil => exact List.Perm.refl _
  | cons g gs ih =>
    unfold pySortInsert
    split
    · exact List.Perm.refl _
    · exact (List.Perm.cons g ih).trans (List.Perm.swap f g gs)

theorem pySort_perm (l : List String) : List.Perm (pySort l) l := by
  induction l with
  | nil => exact List.Perm.refl _
  | cons f fs ih =>
    exact (pySortInsert_perm f (pySort fs)).trans (List.Perm.cons f ih)

theorem length_le_one_of_forall_eq {l : List String} {a : String} (hnd : l.Nodup)
    (h : ∀ x ∈ l, x = a) : l.length ≤ 1 := by
  cases l with
  | nil => simp
  | cons x t =>
    cases t with
    | nil => simp
    | cons y t2 =>
      exfalso
      have hx : x = a := h x (List.mem_cons_self x _)
      have hy : y = a := h y (List.mem_cons_of_mem x (List.mem_cons_self y t2))
      rcases List.nodup_cons.mp hnd with ⟨hnotmem, -⟩
      exact hnotmem ((hx.trans hy.symm) ▸ List.mem_cons_self y t2)

theorem filter_swap (p q : α → Bool) (l : List α) :
    (l.filter p).filter q = (l.filter q).filter p := by
  rw [List.filter_filter, List.filter_filter]
  exact List.filter_congr fun a _ => Bool.and_comm _ _

theorem mem_removedFiles_of_key {files : List String} {k : String × String} {x : String}
    (hk : ∃ f, f ∈ files.filter isCbz ∧ fileKey f = some k)
    (hx : x ∈ removedForKey (files.filter isCbz) k) :
    x ∈ removedFiles files := by
  simp only [removedFiles]
  exact List.mem_flatMap.mpr ⟨k, List.mem_dedup.mpr (List.mem_filterMap.mpr hk), hx⟩

/-- After one dedup pass, every grouping key has at most one surviving
file. -/
theorem dedup_group_le_one {files : List String} (hnd : files.Nodup) (k : String × String) :
    (groupOf ((deduplicate_chapters files).filter isCbz) k).length ≤ 1 := by
  have hA : (deduplicate_chapters files).filter isCbz =
      (files.filter isCbz).filter (fun f => !(removedFiles files).contains f) := by
    show (files.filter (fun f => !(removedFiles files).contains f)).filter isCbz = _
    exact filter_swap _ _ _
  have hB : groupOf ((deduplicate_chapters files).filter isCbz) k =
      (groupOf (files.filter isCbz) k).filter
        (fun f => !(removedFiles files).contains f) := by
    unfold groupOf
    rw [hA]
    exact filter_swap _ _ _
  rw [hB]
  by_cases hlen : 1 < (groupOf (files.filter isCbz) k).length
  case neg =>
    exact le_trans (List.length_filter_le _ _) (by omega)
  case pos =>
    have hperm := pySort_perm (groupOf (files.filter isCbz) k)
    have hml : (pySort (groupOf (files.filter isCbz) k)).length =
        (groupOf (files.filter isCbz) k).length := hperm.length_eq
    obtain ⟨h0, t, hm⟩ : ∃ h0 t, pySort (groupOf (files.filter isCbz) k) = h0 :: t := by
      cases hpg : pySort (groupOf (files.filter isCbz) k) with
      | nil =>
        rw [hpg] at hml
        simp at hml
        omega
      | cons a b => exact ⟨a, b, rfl⟩
    have hkex : ∃ f, f ∈ files.filter isCbz ∧ fileKey f = some k := by
      have hgne : groupOf (files.filter isCbz) k ≠ [] := by
        intro hnil
        rw [hnil] at hlen
        simp at hlen
      obtain ⟨f, hf⟩ := List.exists_mem_of_ne_nil _ hgne
      unfold groupOf at hf
      rcases List.mem_filter.mp hf with ⟨hf1, hf2⟩
      exact ⟨f, hf1, of_decide_eq_true hf2⟩
    have hrm : ∀ x ∈ t, x ∈ removedFiles files := by
      intro x hx
      apply mem_removedFiles_of_key hkex
      simp only [removedForKey]
      rw [if_pos hlen, hm]
      exact hx
    have hall : ∀ x ∈ (groupOf (files.filter isCbz) k).filter
        (fun f => !(removedFiles files).contains f), x = h0 := by
      intro x hx
      rcases List.mem_filter.mp hx with ⟨hxg, hxp⟩
      have hxm : x ∈ pySort (groupOf (files.filter isCbz) k) := hperm.mem_iff.mpr hxg
      rw [hm] at hxm
      rcases List.mem_cons.mp hxm with rfl | hxt
      · rfl
      · exfalso
        have hmem := hrm x hxt
        have hxp2 : x ∉ removedFiles files := by simpa using hxp
        exact hxp2 hmem
    have hndg : ((groupOf (files.filter isCbz) k).filter
        (fun f => !(removedFiles files).contains f)).Nodup := by
      have h2 : (groupOf (files.filter isCbz) k).Nodup := by
        unfold groupOf
        exact (hnd.filter _).filter _
      exact h2.filter _
    exact length_le_one_of_forall_eq hndg hall

theorem removedFiles_dedup_eq_nil {files : List String} (hnd : files.Nodup) :
    removedFiles (deduplicate_chapters files) = [] := by
  simp only [removedFiles]
  rw [List.flatMap_eq_nil_iff]
  intro k hk
  simp only [removedForKey]
  rw [if_neg (by have := dedup_group_le_one hnd k; omega)]

/-- C8: the dedup pass of the normalizer is idempotent — on a directory
with distinct file names, running it twice leaves exactly the files one
run leaves; and on a directory where the pass would delete nothing (an
already-clean directory), it is the identity. -/
theorem deduplicate_chapters_idempotent (files : List String) (hnd : files.Nodup) :
    deduplicate_chapters (deduplicate_chapters files) = deduplicate_chapters files ∧
    (∀ dir : List String, removedFiles dir = [] → deduplicate_chapters dir = dir) := by
  constructor
  · have h1 : removedFiles (deduplicate_chapters files) = [] :=
      removedFiles_dedup_eq_nil hnd
    show (deduplicate_chapters files).filter
        (fun f => !(removedFiles (deduplicate_chapters files)).contains f) =
      deduplicate_chapters files
    rw [h1]
    simp
  · intro dir h
    show dir.filter (fun f => !(removedFiles dir).contains f) = dir
    rw [h]
    simp

/-- Witness for C8 on a concrete directory with a duplicate pair. -/
theorem deduplicate_chapters_idempotent_witness :
    deduplicate_chapters (deduplicate_chapters
        ["B Chapter 3 v2.cbz", "B Chapter 3.cbz", "notes.txt"]) =
      deduplicate_chapters ["B Chapter 3 v2.cbz", "B Chapter 3.cbz", "notes.txt"] :=
  (deduplicate_chapters_idempotent ["B Chapter 3 v2.cbz", "B Chapter 3.cbz", "notes.txt"]
    (by decide)).1

/-! ## The chapter-number capture (C9) -/

theorem matchChapterTail_digits {cs ds : List Char} (h : matchChapterTail cs = some ds) :
    ds ≠ [] ∧ ∀ c ∈ ds, Char.isDigit c = true := by
  unfold matchChapterTail at h
  cases hs : stripCaseLit "chapter".data cs with
  | none =>
    rw [hs] at h
    exact absurd h (by simp)
  | some r1 =>
    rw [hs] at h
    dsimp only at h
    split at h
    · exact absurd h (by simp)
    · split at h
      · exact absurd h (by simp)
      · rename_i hne
        injection h with h2
        subst h2
        refine ⟨?_, fun c hc => List.mem_takeWhile_imp hc⟩
        intro hnil
        rw [hnil] at hne
        exact hne rfl

theorem matchAfterSeries_digits {cs ds : List Char}
    (h : matchAfterSeries cs = some ds) :
    ds ≠ [] ∧ ∀ c ∈ ds, Char.isDigit c = true := by
  simp only [matchAfterSeries] at h
  split at h
  · exact absurd h (by simp)
  · cases hv : matchVolumeMarker (cs.dropWhile pyIsSpace) with
    | some r2 =>
      rw [hv] at h
      dsimp only at h
      cases ht : matchChapterTail r2 with
      | some ds2 =>
        rw [ht] at h
        dsimp only at h
        injection h with h2
        subst h2
        exact matchChapterTail_digits ht
      | none =>
        rw [ht] at h
        dsimp only at h
        exact matchChapterTail_digits h
    | none =>
      rw [hv] at h
      exact matchChapterTail_digits h

theorem seriesSearch_digits {series ds : List Char} :
    ∀ (name acc : List Char), seriesSearch acc name = some (series, ds) →
      ds ≠ [] ∧ ∀ c ∈ ds, Char.isDigit c = true := by
  intro name
  induction name with
  | nil =>
    intro acc h
    exact absurd h (by simp [seriesSearch])
  | cons c cs ih =>
    intro acc h
    rw [seriesSearch] at h
    split at h
    · exact absurd h (by simp)
    · cases hm : matchAfterSeries cs with
      | some ds2 =>
        rw [hm] at h
        injection h with h2
        rw [Prod.mk.injEq] at h2
        rcases h2 with ⟨-, rfl⟩
        exact matchAfterSeries_digits hm
      | none =>
        rw [hm] at h
        exact ih (c :: acc) h

/-- C9 (amended): the extracted chapterNumber is always a bare maximal
digit run — non-integer chapter tokens are truncated at the first
non-digit character, never preserved. -/
theorem fileKey_chapterNumber_digits (f series num : String)
    (h : fileKey f = some (series, num)) :
    num.data ≠ [] ∧ ∀ c ∈ num.data, Char.isDigit c = true := by
  unfold fileKey at h
  cases hp : series_chapter_pattern f.data with
  | none =>
    rw [hp] at h
    exact absurd h (by simp)
  | some pr =>
    obtain ⟨s0, d0⟩ := pr
    rw [hp] at h
    dsimp only at h
    injection h with h2
    rw [Prod.mk.injEq] at h2
    rcases h2 with ⟨-, rfl⟩
    exact seriesSearch_digits f.data [] hp

/-- Witness for C9's amended theorem at a concrete filename. -/
theorem fileKey_chapterNumber_digits_witness :
    ("10" : String).data ≠ [] ∧ ∀ c ∈ ("10" : String).data, Char.isDigit c = true :=
  fileKey_chapterNumber_digits "A Chapter 10.cbz" "A" "10" (by decide)

/-- C9 counterexample: a file with the non-integer chapter token
`Chapter 10.5` receives chapterNumber `"10"`, the very same as
`Chapter 10` of the same series — the two files fall into the same
duplicate group, and the normalizer deletes the `10.5` file as a
duplicate of chapter 10. -/
theorem chapter_decimal_same_group :
    fileKey "A Chapter 10.cbz" = some ("A", "10") ∧
    fileKey "A Chapter 10.5.cbz" = some ("A", "10") ∧
    deduplicate_chapters ["A Chapter 10.cbz", "A Chapter 10.5.cbz"] =
      ["A Chapter 10.cbz"] := by
  decide

end BookDownloader
